import Mathlib

/-!
# Verification of the text-editing widgets of p5.SimpleUI

A shallow embedding of the state and event-handling logic of the
`TextArea`, `InputBox` and `Slider` classes of `src/p5.SimpleUI.js`,
together with theorems about cursor invariants, notification firing,
hit testing, scrolling and value quantization.

JavaScript strings are modelled as `List Char`; pixel coordinates as
`Int` (the concrete inputs appearing in the spec are integral); slider
values as `ℚ`.  Event callbacks (`onInput` / `onChange`) are modelled
by returning the list of payloads the handler passes to the registered
callback during one call (empty when no callback is registered).
-/

namespace SimpleUI

/-- Characters of a JavaScript string. -/
abbrev Str := List Char

/-- JavaScript `s.split('\n')` (always returns at least one piece). -/
def splitNl (s : Str) : List Str := s.splitOn '\n'

/-- JavaScript `parts.join('\n')`. -/
def joinNl (ls : List Str) : Str := List.intercalate ['\n'] ls

/-- Widget geometry `(this.x, this.y, this.w, this.h)`. -/
structure Rect where
  x : Int
  y : Int
  w : Int
  h : Int

/-- `this.lineHeight = 20` from the `TextArea` constructor. -/
def lineHeight : Int := 20

/-- p5's `constrain(n, low, high) = max(min(n, high), low)` on pixel values. -/
def constrainI (n low high : Int) : Int := max (min n high) low

/-- The mutable fields of a `TextArea` instance. -/
structure TAState where
  text : Str
  lines : List Str
  isFocused : Bool
  hasOnInput : Bool
  cursorX : Nat
  cursorY : Nat
  scrollY : Int

/-- The key press dispatched to `TextArea.handleKeyPress`, discriminated the
way the handler's `if`/`else if` chain does: the six named key codes, a key
whose string value has length 1 (`char`), or anything else (`other`). -/
inductive Key where
  | enter
  | backspace
  | leftArrow
  | rightArrow
  | upArrow
  | downArrow
  | char (c : Char)
  | other
deriving DecidableEq

namespace TextArea

/-- `TextArea` constructor: `this.text = defaultText; this.lines = [defaultText];
this.cursorX = 0; this.cursorY = 0; this.scrollY = 0`. -/
def init (defaultText : Str) : TAState :=
  { text := defaultText
    lines := [defaultText]
    isFocused := false
    hasOnInput := false
    cursorX := 0
    cursorY := 0
    scrollY := 0 }

/-- The `if`/`else if` chain of `TextArea.handleKeyPress` that edits
`lines`/`cursorX`/`cursorY` (everything before the scroll update). -/
def editStep (k : Key) (st : TAState) : TAState :=
  match k with
  | .enter =>
    let line := st.lines.getD st.cursorY []
    let rightPart := line.drop st.cursorX
    let lines1 := st.lines.set st.cursorY (line.take st.cursorX)
    { st with lines := lines1.insertIdx (st.cursorY + 1) rightPart
              cursorY := st.cursorY + 1
              cursorX := 0 }
  | .backspace =>
    if st.cursorX > 0 then
      let line := st.lines.getD st.cursorY []
      { st with lines := st.lines.set st.cursorY
                  (line.take (st.cursorX - 1) ++ line.drop st.cursorX)
                cursorX := st.cursorX - 1 }
    else if st.cursorY > 0 then
      let prev := st.lines.getD (st.cursorY - 1) []
      let cur := st.lines.getD st.cursorY []
      let lines1 := st.lines.set (st.cursorY - 1) (prev ++ cur)
      { st with lines := lines1.eraseIdx st.cursorY
                cursorX := prev.length
                cursorY := st.cursorY - 1 }
    else st
  | .leftArrow =>
    if st.cursorX > 0 then
      { st with cursorX := st.cursorX - 1 }
    else if st.cursorY > 0 then
      { st with cursorY := st.cursorY - 1
                cursorX := (st.lines.getD (st.cursorY - 1) []).length }
    else st
  | .rightArrow =>
    if st.cursorX < (st.lines.getD st.cursorY []).length then
      { st with cursorX := st.cursorX + 1 }
    else if st.cursorY < st.lines.length - 1 then
      { st with cursorY := st.cursorY + 1, cursorX := 0 }
    else st
  | .upArrow =>
    if st.cursorY > 0 then
      { st with cursorY := st.cursorY - 1
                cursorX := min st.cursorX (st.lines.getD (st.cursorY - 1) []).length }
    else st
  | .downArrow =>
    if st.cursorY < st.lines.length - 1 then
      { st with cursorY := st.cursorY + 1
                cursorX := min st.cursorX (st.lines.getD (st.cursorY + 1) []).length }
    else st
  | .char c =>
    let line := st.lines.getD st.cursorY []
    { st with lines := st.lines.set st.cursorY
                (line.take st.cursorX ++ c :: line.drop st.cursorX)
              cursorX := st.cursorX + 1 }
  | .other => st

/-- The scroll update at the end of `TextArea.handleKeyPress`. -/
def scrollStep (cfg : Rect) (st : TAState) : TAState :=
  if (st.cursorY : Int) * lineHeight < st.scrollY then
    { st with scrollY := (st.cursorY : Int) * lineHeight }
  else if ((st.cursorY : Int) + 1) * lineHeight > st.scrollY + cfg.h then
    { st with scrollY := ((st.cursorY : Int) + 1) * lineHeight - cfg.h }
  else st

/-- `TextArea.handleKeyPress`: returns the new state together with the list of
payloads passed to the `onInput` callback during the call. -/
def handleKeyPress (cfg : Rect) (k : Key) (st : TAState) : TAState × List Str :=
  if !st.isFocused then (st, [])
  else
    let st1 := editStep k st
    let st2 := scrollStep cfg st1
    let newText := joinNl st2.lines
    ({ st2 with text := newText }, if st.hasOnInput then [newText] else [])

/-- The column-resolution loop of `TextArea.handleClick`: starting from
accumulated width `lineWidth`, consume characters while `lineWidth < x`,
returning how many were consumed. -/
def hitColumn (measure : Char → Int) : Str → Int → Int → Nat
  | [], _, _ => 0
  | c :: rest, lineWidth, x =>
    if lineWidth < x then hitColumn measure rest (lineWidth + measure c) x + 1
    else 0

/-- `TextArea.handleClick`: focus follows the bounds test; on focus the cursor
is placed from the mouse position (`measure` is the host's per-character
`textWidth`). -/
def handleClick (cfg : Rect) (measure : Char → Int) (mouseX mouseY : Int)
    (st : TAState) : TAState :=
  let focused := mouseX > cfg.x && mouseX < cfg.x + cfg.w &&
      mouseY > cfg.y && mouseY < cfg.y + cfg.h
  let st1 := { st with isFocused := focused }
  if focused then
    let yRow := Int.fdiv (mouseY - cfg.y + st1.scrollY) lineHeight
    let row := (constrainI yRow 0 ((st1.lines.length : Int) - 1)).toNat
    let xTarget := mouseX - cfg.x - 5
    { st1 with cursorY := row
               cursorX := hitColumn measure (st1.lines.getD row []) 0 xTarget }
  else st1

/-- `TextArea.getText`. -/
def getText (st : TAState) : Str := st.text

/-- `TextArea.setText`. -/
def setText (s : Str) (st : TAState) : TAState :=
  let lines := splitNl s
  { st with text := s
            lines := lines
            cursorX := (lines.getD (lines.length - 1) []).length
            cursorY := lines.length - 1 }

end TextArea

/-- One host-dispatched event on a `TextArea`. -/
inductive TAOp where
  | key (k : Key)
  | click (measure : Char → Int) (mouseX mouseY : Int)
  | setText (s : Str)

/-- Apply one event (discarding the notification payloads). -/
def TAOp.apply (cfg : Rect) (st : TAState) : TAOp → TAState
  | .key k => (TextArea.handleKeyPress cfg k st).1
  | .click m mx my => TextArea.handleClick cfg m mx my st
  | .setText s => TextArea.setText s st

/-- The cursor/buffer invariants of the spec's data model. -/
def Valid (st : TAState) : Prop :=
  st.lines ≠ [] ∧ st.cursorY < st.lines.length ∧
    st.cursorX ≤ (st.lines.getD st.cursorY []).length

/-- Accumulated measured width of the first `k` characters of a line. -/
def prefixWidth (measure : Char → Int) (line : Str) (k : Nat) : Int :=
  ((line.take k).map measure).sum

/-- The mutable fields of an `InputBox` instance. -/
structure IBState where
  text : Str
  isFocused : Bool
  hasOnInput : Bool

namespace InputBox

/-- `InputBox.handleKeyPress`: `BACKSPACE` drops the last character,
`ENTER` defocuses, a length-1 key appends; returns the new state and the
payloads passed to `onInput`. -/
def handleKeyPress (k : Key) (st : IBState) : IBState × List Str :=
  if !st.isFocused then (st, [])
  else
    let st1 :=
      match k with
      | .backspace => if st.text.length > 0 then { st with text := st.text.dropLast } else st
      | .enter => { st with isFocused := false }
      | .char c => { st with text := st.text ++ [c] }
      | _ => st
    (st1, if st.hasOnInput then [st1.text] else [])

/-- `InputBox.handleClick`: focus becomes the result of the bounds test. -/
def handleClick (cfg : Rect) (mouseX mouseY : Int) (st : IBState) : IBState :=
  { st with isFocused := mouseX > cfg.x && mouseX < cfg.x + cfg.w &&
      mouseY > cfg.y && mouseY < cfg.y + cfg.h }

end InputBox

/-- JavaScript `Math.round` on an exact rational: `⌊q + 1/2⌋`. -/
def jsRound (q : ℚ) : ℤ := ⌊q + 1 / 2⌋

/-- p5's `constrain` on slider values. -/
def constrainQ (n low high : ℚ) : ℚ := max (min n high) low

/-- The fields of a `Slider` instance used by `setValue`/`getValue`. -/
structure SliderState where
  value : ℚ
  min : ℚ
  max : ℚ
  isInteger : Bool
  step : ℚ
  hasOnChange : Bool

namespace Slider

/-- `Slider.getValue`. -/
def getValue (st : SliderState) : ℚ := st.value

/-- `Slider.setValue`: round to integer / step multiple, constrain into
`[min, max]`, store, then invoke `onChange` with the stored value. -/
def setValue (value : ℚ) (st : SliderState) : SliderState × List ℚ :=
  let v1 :=
    if st.isInteger then (jsRound value : ℚ)
    else if st.step ≠ 0 then (jsRound (value / st.step) : ℚ) * st.step
    else value
  let newValue := constrainQ v1 st.min st.max
  ({ st with value := newValue }, if st.hasOnChange then [newValue] else [])

end Slider

/-! Concrete widget configurations and states used to instantiate the
theorems below. -/

/-- A 100×30 widget at the origin. -/
def exCfg : Rect := ⟨0, 0, 100, 30⟩

/-- Per-character width of 10px for every character. -/
def exMeasure : Char → Int := fun _ => 10

/-- A focused one-line `TextArea` holding `"a"`, cursor at `(0,0)`,
with an `onInput` callback registered. -/
def exA : TAState where
  text := ['a']
  lines := [['a']]
  isFocused := true
  hasOnInput := true
  cursorX := 0
  cursorY := 0
  scrollY := 0

/-- An unfocused `TextArea` holding the single line `"hi"`. -/
def exHi : TAState where
  text := ['h', 'i']
  lines := [['h', 'i']]
  isFocused := false
  hasOnInput := false
  cursorX := 0
  cursorY := 0
  scrollY := 0

/-- An unfocused `TextArea` holding lines `"a"`, `"b"`, scroll at 0. -/
def exAB : TAState where
  text := ['a', '\n', 'b']
  lines := [['a'], ['b']]
  isFocused := false
  hasOnInput := false
  cursorX := 0
  cursorY := 0
  scrollY := 0

/-- A focused `TextArea` with buffer `["ab", "cd"]` and cursor `(1,0)`. -/
def exAbCd : TAState where
  text := ['a', 'b', '\n', 'c', 'd']
  lines := [['a', 'b'], ['c', 'd']]
  isFocused := true
  hasOnInput := true
  cursorX := 0
  cursorY := 1
  scrollY := 0

/-- An unfocused `InputBox` holding `"h"` with a callback registered. -/
def exIBu : IBState where
  text := ['h']
  isFocused := false
  hasOnInput := true

/-- A focused `InputBox` holding `"h"` with a callback registered. -/
def exIBf : IBState where
  text := ['h']
  isFocused := true
  hasOnInput := true

/-- A slider over `[0, 10]` with step `1/2` and an `onChange` callback. -/
def exSlider : SliderState where
  value := 0
  min := 0
  max := 10
  isInteger := false
  step := 1 / 2
  hasOnChange := true

/-! ## Helper lemmas -/


theorem getD_set_self {l : List Str} {i : Nat} {a : Str} (h : i < l.length) :
    (l.set i a).getD i [] = a := by
  simp [List.getD_eq_getElem?_getD, List.getElem?_set_self h]

theorem getD_set_ne {l : List Str} {i j : Nat} {a : Str} (h : i ≠ j) :
    (l.set i a).getD j [] = l.getD j [] := by
  simp [List.getD_eq_getElem?_getD, List.getElem?_set_ne h]

theorem getD_eraseIdx_of_lt {l : List Str} {i j : Nat} (h : j < i) :
    (l.eraseIdx i).getD j [] = l.getD j [] := by
  simp [List.getD_eq_getElem?_getD, List.getElem?_eraseIdx, h]

theorem valid_editStep (k : Key) (st : TAState) (h : Valid st) :
    Valid (TextArea.editStep k st) := by
  obtain ⟨hne, hy, hx⟩ := h
  have hlen : 0 < st.lines.length := List.length_pos.mpr hne
  have hnil : ∀ (l : List Str), 0 < l.length → l ≠ [] := fun l hl => List.length_pos.mp hl
  cases k with
  | enter =>
    simp only [TextArea.editStep, Valid]
    have hle : st.cursorY + 1 ≤
        (st.lines.set st.cursorY ((st.lines.getD st.cursorY []).take st.cursorX)).length := by
      rw [List.length_set]; omega
    have hilen : ((st.lines.set st.cursorY
        ((st.lines.getD st.cursorY []).take st.cursorX)).insertIdx
          (st.cursorY + 1) ((st.lines.getD st.cursorY []).drop st.cursorX)).length
        = st.lines.length + 1 := by
      rw [List.length_insertIdx _ _ hle, List.length_set]
    exact ⟨hnil _ (by rw [hilen]; omega), by rw [hilen]; omega, Nat.zero_le _⟩
  | backspace =>
    simp only [TextArea.editStep, Valid]
    by_cases h1 : st.cursorX > 0
    · rw [if_pos h1]
      dsimp only
      refine ⟨hnil _ (by rw [List.length_set]; omega), by rw [List.length_set]; omega, ?_⟩
      rw [getD_set_self hy]
      rw [List.length_append, List.length_take, List.length_drop,
        Nat.min_eq_left (by omega)]
      omega
    · rw [if_neg h1]
      by_cases h2 : st.cursorY > 0
      · rw [if_pos h2]
        dsimp only
        have herase : ((st.lines.set (st.cursorY - 1)
            (st.lines.getD (st.cursorY - 1) [] ++ st.lines.getD st.cursorY [])).eraseIdx
              st.cursorY).length = st.lines.length - 1 := by
          rw [List.length_eraseIdx_of_lt (by rw [List.length_set]; omega), List.length_set]
        refine ⟨hnil _ (by rw [herase]; omega), by rw [herase]; omega, ?_⟩
        rw [getD_eraseIdx_of_lt (by omega), getD_set_self (by omega), List.length_append]
        omega
      · rw [if_neg h2]
        exact ⟨hne, hy, hx⟩
  | leftArrow =>
    simp only [TextArea.editStep, Valid]
    by_cases h1 : st.cursorX > 0
    · rw [if_pos h1]
      dsimp only
      exact ⟨hne, hy, by omega⟩
    · rw [if_neg h1]
      by_cases h2 : st.cursorY > 0
      · rw [if_pos h2]
        dsimp only
        exact ⟨hne, by omega, Nat.le_refl _⟩
      · rw [if_neg h2]
        exact ⟨hne, hy, hx⟩
  | rightArrow =>
    simp only [TextArea.editStep, Valid]
    by_cases h1 : st.cursorX < (st.lines.getD st.cursorY []).length
    · rw [if_pos h1]
      dsimp only
      exact ⟨hne, hy, by omega⟩
    · rw [if_neg h1]
      by_cases h2 : st.cursorY < st.lines.length - 1
      · rw [if_pos h2]
        dsimp only
        exact ⟨hne, by omega, Nat.zero_le _⟩
      · rw [if_neg h2]
        exact ⟨hne, hy, hx⟩
  | upArrow =>
    simp only [TextArea.editStep, Valid]
    by_cases h1 : st.cursorY > 0
    · rw [if_pos h1]
      dsimp only
      exact ⟨hne, by omega, Nat.min_le_right _ _⟩
    · rw [if_neg h1]
      exact ⟨hne, hy, hx⟩
  | downArrow =>
    simp only [TextArea.editStep, Valid]
    by_cases h1 : st.cursorY < st.lines.length - 1
    · rw [if_pos h1]
      dsimp only
      exact ⟨hne, by omega, Nat.min_le_right _ _⟩
    · rw [if_neg h1]
      exact ⟨hne, hy, hx⟩
  | char c =>
    simp only [TextArea.editStep, Valid]
    refine ⟨hnil _ (by rw [List.length_set]; omega), by rw [List.length_set]; omega, ?_⟩
    rw [getD_set_self hy]
    rw [List.length_append, List.length_take, List.length_cons,
      Nat.min_eq_left (by omega)]
    omega
  | other =>
    exact ⟨hne, hy, hx⟩


theorem hitColumn_le (measure : Char → Int) :
    ∀ (line : Str) (lw x : Int), TextArea.hitColumn measure line lw x ≤ line.length
  | [], _, _ => Nat.le_refl 0
  | c :: rest, lw, x => by
    rw [TextArea.hitColumn]
    split
    · exact Nat.succ_le_succ (hitColumn_le measure rest _ _)
    · exact Nat.zero_le _

theorem scrollStep_fields (cfg : Rect) (st : TAState) :
    (TextArea.scrollStep cfg st).lines = st.lines ∧
      (TextArea.scrollStep cfg st).cursorX = st.cursorX ∧
      (TextArea.scrollStep cfg st).cursorY = st.cursorY ∧
      (TextArea.scrollStep cfg st).text = st.text ∧
      (TextArea.scrollStep cfg st).isFocused = st.isFocused ∧
      (TextArea.scrollStep cfg st).hasOnInput = st.hasOnInput := by
  unfold TextArea.scrollStep
  split
  · exact ⟨rfl, rfl, rfl, rfl, rfl, rfl⟩
  · split
    · exact ⟨rfl, rfl, rfl, rfl, rfl, rfl⟩
    · exact ⟨rfl, rfl, rfl, rfl, rfl, rfl⟩

theorem valid_scrollStep (cfg : Rect) (st : TAState) (h : Valid st) :
    Valid (TextArea.scrollStep cfg st) := by
  obtain ⟨h1, h2, h3⟩ := h
  obtain ⟨e1, e2, e3, -, -, -⟩ := scrollStep_fields cfg st
  exact ⟨e1 ▸ h1, e3 ▸ e1 ▸ h2, by rw [e2, e1, e3]; exact h3⟩

theorem valid_handleKeyPress (cfg : Rect) (k : Key) (st : TAState) (h : Valid st) :
    Valid (TextArea.handleKeyPress cfg k st).1 := by
  unfold TextArea.handleKeyPress
  split
  · exact h
  · have h2 := valid_scrollStep cfg _ (valid_editStep k st h)
    obtain ⟨v1, v2, v3⟩ := h2
    exact ⟨v1, v2, v3⟩

theorem valid_handleClick (cfg : Rect) (measure : Char → Int) (mouseX mouseY : Int)
    (st : TAState) (h : Valid st) :
    Valid (TextArea.handleClick cfg measure mouseX mouseY st) := by
  obtain ⟨hne, hy, hx⟩ := h
  have hlen : 0 < st.lines.length := List.length_pos.mpr hne
  unfold TextArea.handleClick
  dsimp only
  split
  · simp only [Valid]
    refine ⟨hne, ?_, hitColumn_le measure _ _ _⟩
    have hb : constrainI (Int.fdiv (mouseY - cfg.y + st.scrollY) lineHeight) 0
        ((st.lines.length : Int) - 1) ≤ (st.lines.length : Int) - 1 := by
      unfold constrainI
      have : (0 : Int) ≤ (st.lines.length : Int) - 1 := by omega
      exact max_le (min_le_right _ _) this
    omega
  · exact ⟨hne, hy, hx⟩

theorem splitNl_ne_nil (s : Str) : splitNl s ≠ [] := by
  unfold splitNl List.splitOn
  exact List.splitOnP_ne_nil _ _

theorem valid_setText (s : Str) (st : TAState) : Valid (TextArea.setText s st) := by
  have hlen : 0 < (splitNl s).length := List.length_pos.mpr (splitNl_ne_nil s)
  unfold TextArea.setText
  simp only [Valid]
  exact ⟨splitNl_ne_nil s, by omega, Nat.le_refl _⟩

theorem valid_apply (cfg : Rect) (st : TAState) (op : TAOp) (h : Valid st) :
    Valid (TAOp.apply cfg st op) := by
  cases op with
  | key k => exact valid_handleKeyPress cfg k st h
  | click m mx my => exact valid_handleClick cfg m mx my st h
  | setText s => exact valid_setText s st

theorem valid_foldl (cfg : Rect) :
    ∀ (ops : List TAOp) (st : TAState), Valid st →
      Valid (List.foldl (TAOp.apply cfg) st ops)
  | [], _st, h => h
  | op :: ops, st, h => valid_foldl cfg ops _ (valid_apply cfg st op h)


theorem getD_eraseIdx_of_ge {l : List Str} {i j : Nat} (h : i ≤ j) :
    (l.eraseIdx i).getD j [] = l.getD (j + 1) [] := by
  simp [List.getD_eq_getElem?_getD, List.getElem?_eraseIdx, Nat.not_lt.mpr h]

theorem prefixWidth_zero (measure : Char → Int) (l : Str) : prefixWidth measure l 0 = 0 := rfl

theorem prefixWidth_succ_cons (measure : Char → Int) (c : Char) (l : Str) (j : Nat) :
    prefixWidth measure (c :: l) (j + 1) = measure c + prefixWidth measure l j := by
  simp [prefixWidth]

theorem hitColumn_spec (measure : Char → Int) :
    ∀ (line : Str) (lw x : Int),
      (∀ j, j < TextArea.hitColumn measure line lw x →
        lw + prefixWidth measure line j < x) ∧
      (TextArea.hitColumn measure line lw x < line.length →
        x ≤ lw + prefixWidth measure line (TextArea.hitColumn measure line lw x))
  | [], lw, x => by
    refine ⟨fun j hj => absurd hj (by simp [TextArea.hitColumn]), fun h => absurd h (by simp [TextArea.hitColumn])⟩
  | c :: rest, lw, x => by
    rw [TextArea.hitColumn]
    by_cases hlt : lw < x
    · rw [if_pos hlt]
      obtain ⟨ih1, ih2⟩ := hitColumn_spec measure rest (lw + measure c) x
      constructor
      · intro j hj
        cases j with
        | zero => simpa [prefixWidth_zero] using hlt
        | succ j' =>
          have hj' : j' < TextArea.hitColumn measure rest (lw + measure c) x := by omega
          have := ih1 j' hj'
          rw [prefixWidth_succ_cons]
          omega
      · intro hlen
        have hlen' : TextArea.hitColumn measure rest (lw + measure c) x < rest.length := by
          simpa using Nat.lt_of_succ_lt_succ hlen
        have := ih2 hlen'
        rw [prefixWidth_succ_cons]
        omega
    · rw [if_neg hlt]
      exact ⟨fun j hj => absurd hj (Nat.not_lt_zero j),
        fun _ => by simpa [prefixWidth_zero] using Int.not_lt.mp hlt⟩

theorem handleKeyPress_eq (cfg : Rect) (k : Key) (st : TAState) (hf : st.isFocused = true) :
    TextArea.handleKeyPress cfg k st =
      ({ TextArea.scrollStep cfg (TextArea.editStep k st) with
          text := joinNl (TextArea.scrollStep cfg (TextArea.editStep k st)).lines },
        if st.hasOnInput then
          [joinNl (TextArea.scrollStep cfg (TextArea.editStep k st)).lines]
        else []) := by
  simp [TextArea.handleKeyPress, hf]

theorem editStep_scrollY (k : Key) (st : TAState) :
    (TextArea.editStep k st).scrollY = st.scrollY := by
  cases k <;> simp only [TextArea.editStep] <;> split_ifs <;> rfl


/-- Claim C1 (amended): for every focused TextArea.handleKeyPress call with a
registered onInput callback, exactly one content-changed notification fires,
carrying the full joined text computed after the mutation -- for every key,
including pure cursor-navigation arrows (the original claim's "zero
notifications for navigation" is refuted by `rightArrow_fires_notification`). -/
theorem handleKeyPress_notifies_exactly_once (cfg : Rect) (k : Key) (st : TAState)
    (hf : st.isFocused = true) (hcb : st.hasOnInput = true) :
    (TextArea.handleKeyPress cfg k st).2 = [(TextArea.handleKeyPress cfg k st).1.text] ∧
    (TextArea.handleKeyPress cfg k st).1.text =
      joinNl (TextArea.handleKeyPress cfg k st).1.lines := by
  rw [handleKeyPress_eq cfg k st hf, hcb]
  exact ⟨rfl, rfl⟩

/-- Claim C1 counterexample: a pure right-arrow navigation key event on a
focused TextArea with a registered callback fires one notification, not zero
as the claim states. -/
theorem rightArrow_fires_notification :
    (TextArea.handleKeyPress exCfg Key.rightArrow exA).2.length = 1 ∧
    (TextArea.handleKeyPress exCfg Key.rightArrow exA).2 ≠ [] := by
  constructor <;> decide

/-- Claim C2 (amended): Backspace at row 0, column 0 leaves the line
sequence and cursor unchanged, but still fires the single end-of-handler
notification (carrying the unchanged joined text), and still runs the scroll
re-clamp for row 0 (scroll drops to 0 when it was positive, or rises to
lineHeight - h when the viewport is shorter than one line). -/
theorem backspace_at_origin_preserves_buffer (cfg : Rect) (st : TAState) (hf : st.isFocused = true)
    (hx0 : st.cursorX = 0) (hy0 : st.cursorY = 0) :
    (TextArea.handleKeyPress cfg Key.backspace st).1.lines = st.lines ∧
    (TextArea.handleKeyPress cfg Key.backspace st).1.cursorX = 0 ∧
    (TextArea.handleKeyPress cfg Key.backspace st).1.cursorY = 0 ∧
    (TextArea.handleKeyPress cfg Key.backspace st).2 =
      (if st.hasOnInput then [joinNl st.lines] else []) ∧
    (TextArea.handleKeyPress cfg Key.backspace st).1.scrollY =
      (if 0 < st.scrollY then 0
       else if lineHeight > st.scrollY + cfg.h then lineHeight - cfg.h
       else st.scrollY) := by
  have hedit : TextArea.editStep Key.backspace st = st := by
    simp [TextArea.editStep, hx0, hy0]
  rw [handleKeyPress_eq cfg Key.backspace st hf, hedit]
  unfold TextArea.scrollStep
  rw [hy0]
  norm_num [lineHeight]
  split_ifs <;> refine ⟨rfl, hx0, ?_, rfl, rfl⟩ <;> first | rfl | exact hy0

/-- Claim C2 counterexample: Backspace at row 0, column 0 on a focused
TextArea with a registered callback fires a notification (the claim says no
notification is fired), even though the line sequence is unchanged. -/
theorem backspace_at_origin_notifies :
    (TextArea.handleKeyPress exCfg Key.backspace exA).2 ≠ [] ∧
    (TextArea.handleKeyPress exCfg Key.backspace exA).1.lines = exA.lines := by
  constructor <;> decide


/-- Claim C3 (amended): for a click inside the widget bounds, the resolved
column is the hit-test loop's count: it never exceeds the line length, every
column strictly before it has accumulated width strictly below the target
x (pointer x minus widget x minus 5px padding), and when it is short of the
line end its own accumulated width is at or past the target -- i.e. the
column stops at the first character boundary at or past the target, or at
line end. Under this rule pointer x=12 gives column 1 and x=16 gives
column 2 (see the counterexample for the original scenario values). -/
theorem handleClick_column_boundary_rule (cfg : Rect) (measure : Char → Int) (mouseX mouseY : Int) (st : TAState)
    (hin : mouseX > cfg.x ∧ mouseX < cfg.x + cfg.w ∧ mouseY > cfg.y ∧ mouseY < cfg.y + cfg.h) :
    (TextArea.handleClick cfg measure mouseX mouseY st).cursorX =
      TextArea.hitColumn measure
        (st.lines.getD (TextArea.handleClick cfg measure mouseX mouseY st).cursorY [])
        0 (mouseX - cfg.x - 5) ∧
    (TextArea.handleClick cfg measure mouseX mouseY st).cursorX ≤
      (st.lines.getD (TextArea.handleClick cfg measure mouseX mouseY st).cursorY []).length ∧
    (∀ j, j < (TextArea.handleClick cfg measure mouseX mouseY st).cursorX →
      prefixWidth measure
          (st.lines.getD (TextArea.handleClick cfg measure mouseX mouseY st).cursorY []) j <
        mouseX - cfg.x - 5) ∧
    ((TextArea.handleClick cfg measure mouseX mouseY st).cursorX <
        (st.lines.getD (TextArea.handleClick cfg measure mouseX mouseY st).cursorY []).length →
      mouseX - cfg.x - 5 ≤
        prefixWidth measure
          (st.lines.getD (TextArea.handleClick cfg measure mouseX mouseY st).cursorY [])
          (TextArea.handleClick cfg measure mouseX mouseY st).cursorX) := by
  obtain ⟨h1, h2, h3, h4⟩ := hin
  have hfoc : (mouseX > cfg.x && mouseX < cfg.x + cfg.w &&
      (mouseY > cfg.y) && (mouseY < cfg.y + cfg.h)) = true := by
    simp [h1, h2, h3, h4]
  have hclick : TextArea.handleClick cfg measure mouseX mouseY st =
      { st with
        isFocused := true
        cursorY := (constrainI (Int.fdiv (mouseY - cfg.y + st.scrollY) lineHeight) 0
          ((st.lines.length : Int) - 1)).toNat
        cursorX := TextArea.hitColumn measure
          (st.lines.getD ((constrainI (Int.fdiv (mouseY - cfg.y + st.scrollY) lineHeight) 0
            ((st.lines.length : Int) - 1)).toNat) [])
          0 (mouseX - cfg.x - 5) } := by
    unfold TextArea.handleClick
    simp only [hfoc]
    rfl
  rw [hclick]
  dsimp only
  obtain ⟨hs1, hs2⟩ := hitColumn_spec measure
    (st.lines.getD ((constrainI (Int.fdiv (mouseY - cfg.y + st.scrollY) lineHeight) 0
      ((st.lines.length : Int) - 1)).toNat) [])
    0 (mouseX - cfg.x - 5)
  refine ⟨rfl, hitColumn_le measure _ _ _, ?_, ?_⟩
  · intro j hj
    have h := hs1 j hj
    omega
  · intro hlt
    have h := hs2 hlt
    omega

/-- Claim C3 counterexample: on line "hi" with 10px characters and 5px
padding, a click at pointer x=12 resolves to column 1, not column 0 as the
claim's scenario states; x=16 resolves to column 2, not 1. -/
theorem handleClick_x12_resolves_column_one :
    (TextArea.handleClick exCfg exMeasure 12 5 exHi).cursorX = 1 ∧
    ¬(TextArea.handleClick exCfg exMeasure 12 5 exHi).cursorX = 0 ∧
    (TextArea.handleClick exCfg exMeasure 16 5 exHi).cursorX = 2 := by
  refine ⟨?_, ?_, ?_⟩ <;> decide

/-- Witness for C3: the boundary rule evaluated on a concrete click at
pointer x=12 on line "hi". -/
theorem handleClick_column_boundary_rule_witness :
    (12 > exCfg.x ∧ 12 < exCfg.x + exCfg.w ∧ 5 > exCfg.y ∧ 5 < exCfg.y + exCfg.h) ∧
    (TextArea.handleClick exCfg exMeasure 12 5 exHi).cursorX =
      TextArea.hitColumn exMeasure
        (exHi.lines.getD (TextArea.handleClick exCfg exMeasure 12 5 exHi).cursorY [])
        0 (12 - exCfg.x - 5) :=
  ⟨by decide, (handleClick_column_boundary_rule exCfg exMeasure 12 5 exHi (by decide)).1⟩


/-- Claim C7: Backspace with cursorCol = 0 and cursorRow > 0 joins the
current line onto the end of the previous line, moves the cursor to the join
point (former end of the previous line), and removes the current line: the
buffer shrinks by one line, lines above are unchanged, and lines below shift
up by one. -/
theorem backspace_at_line_start_joins_lines (cfg : Rect) (st : TAState) (hf : st.isFocused = true)
    (hx0 : st.cursorX = 0) (hy0 : 0 < st.cursorY) (hyv : st.cursorY < st.lines.length) :
    (TextArea.handleKeyPress cfg Key.backspace st).1.lines.length = st.lines.length - 1 ∧
    (TextArea.handleKeyPress cfg Key.backspace st).1.cursorY = st.cursorY - 1 ∧
    (TextArea.handleKeyPress cfg Key.backspace st).1.cursorX =
      (st.lines.getD (st.cursorY - 1) []).length ∧
    (TextArea.handleKeyPress cfg Key.backspace st).1.lines.getD (st.cursorY - 1) [] =
      st.lines.getD (st.cursorY - 1) [] ++ st.lines.getD st.cursorY [] ∧
    (∀ j, j < st.cursorY - 1 →
      (TextArea.handleKeyPress cfg Key.backspace st).1.lines.getD j [] =
        st.lines.getD j []) ∧
    (∀ j, st.cursorY ≤ j →
      (TextArea.handleKeyPress cfg Key.backspace st).1.lines.getD j [] =
        st.lines.getD (j + 1) []) := by
  have hnx : ¬ st.cursorX > 0 := by omega
  have hedit : TextArea.editStep Key.backspace st =
      { st with
        lines := (st.lines.set (st.cursorY - 1)
          (st.lines.getD (st.cursorY - 1) [] ++ st.lines.getD st.cursorY [])).eraseIdx
            st.cursorY
        cursorX := (st.lines.getD (st.cursorY - 1) []).length
        cursorY := st.cursorY - 1 } := by
    simp only [TextArea.editStep, if_neg hnx, if_pos hy0]
  rw [handleKeyPress_eq cfg Key.backspace st hf, hedit]
  obtain ⟨e1, e2, e3, -, -, -⟩ := scrollStep_fields cfg
    { st with
      lines := (st.lines.set (st.cursorY - 1)
        (st.lines.getD (st.cursorY - 1) [] ++ st.lines.getD st.cursorY [])).eraseIdx
          st.cursorY
      cursorX := (st.lines.getD (st.cursorY - 1) []).length
      cursorY := st.cursorY - 1 }
  dsimp only
  rw [e1, e2, e3]
  dsimp only
  refine ⟨?_, rfl, rfl, ?_, ?_, ?_⟩
  · rw [List.length_eraseIdx_of_lt (by rw [List.length_set]; omega), List.length_set]
  · rw [getD_eraseIdx_of_lt (by omega), getD_set_self (by omega)]
  · intro j hj
    rw [getD_eraseIdx_of_lt (by omega), getD_set_ne (by omega)]
  · intro j hj
    rw [getD_eraseIdx_of_ge hj, getD_set_ne (by omega)]

/-- Witness for C7: the spec scenario -- buffer ["ab", "cd"], cursor
(1,0); Backspace yields ["abcd"] with cursor (0,2). -/
theorem backspace_at_line_start_joins_lines_witness :
    (TextArea.handleKeyPress exCfg Key.backspace exAbCd).1.lines.length = 1 ∧
    (TextArea.handleKeyPress exCfg Key.backspace exAbCd).1.cursorY = 0 ∧
    (TextArea.handleKeyPress exCfg Key.backspace exAbCd).1.cursorX = 2 ∧
    (TextArea.handleKeyPress exCfg Key.backspace exAbCd).1.lines.getD 0 [] =
      ['a', 'b', 'c', 'd'] := by
  obtain ⟨w1, w2, w3, w4, -, -⟩ :=
    backspace_at_line_start_joins_lines exCfg exAbCd rfl rfl (by decide) (by decide)
  exact ⟨w1, w2, w3, w4⟩


/-- Claim C8 (amended): the deterministic scroll adjustment runs after
every key event on a focused TextArea -- scroll becomes the cursor line's
top when that is above the viewport, else the line's bottom minus the
viewport height when that bottom is below the viewport, else is unchanged --
and the scroll offset stays nonnegative; handleClick and setText leave the
scroll offset unchanged (the original claim's "click-to-position alike" is
refuted by `handleClick_skips_scroll_adjust`). -/
theorem keyPress_scroll_policy (cfg : Rect) (k : Key) (st : TAState)
    (hf : st.isFocused = true) (h0 : 0 ≤ st.scrollY) :
    (TextArea.handleKeyPress cfg k st).1.scrollY =
      (if ((TextArea.handleKeyPress cfg k st).1.cursorY : Int) * lineHeight < st.scrollY then
        ((TextArea.handleKeyPress cfg k st).1.cursorY : Int) * lineHeight
      else if (((TextArea.handleKeyPress cfg k st).1.cursorY : Int) + 1) * lineHeight >
          st.scrollY + cfg.h then
        (((TextArea.handleKeyPress cfg k st).1.cursorY : Int) + 1) * lineHeight - cfg.h
      else st.scrollY) ∧
    0 ≤ (TextArea.handleKeyPress cfg k st).1.scrollY ∧
    (∀ (measure : Char → Int) (mx my : Int),
      (TextArea.handleClick cfg measure mx my st).scrollY = st.scrollY) ∧
    (∀ s : Str, (TextArea.setText s st).scrollY = st.scrollY) := by
  rw [handleKeyPress_eq cfg k st hf]
  dsimp only
  obtain ⟨-, -, ec, -, -, -⟩ := scrollStep_fields cfg (TextArea.editStep k st)
  rw [ec]
  have hsz := editStep_scrollY k st
  refine ⟨?_, ?_, ?_, ?_⟩
  · unfold TextArea.scrollStep
    rw [hsz]
    split_ifs <;> first | rfl | exact hsz
  · unfold TextArea.scrollStep
    rw [hsz]
    unfold lineHeight
    split_ifs with g1 g2 <;> (try dsimp only) <;> omega
  · intro measure mx my
    unfold TextArea.handleClick
    dsimp only
    split <;> rfl
  · intro s
    rfl

/-- Claim C8 counterexample: a click that moves the cursor to a line whose
bottom (40px) lies below the 30px viewport leaves the scroll offset at 0
instead of adjusting it to bottom minus viewport height (10px). -/
theorem handleClick_skips_scroll_adjust :
    (TextArea.handleClick exCfg exMeasure 10 25 exAB).scrollY = 0 ∧
    ((TextArea.handleClick exCfg exMeasure 10 25 exAB).cursorY : Int) * lineHeight = 20 ∧
    (((TextArea.handleClick exCfg exMeasure 10 25 exAB).cursorY : Int) + 1) * lineHeight >
      exAB.scrollY + exCfg.h ∧
    ¬(TextArea.handleClick exCfg exMeasure 10 25 exAB).scrollY =
      (((TextArea.handleClick exCfg exMeasure 10 25 exAB).cursorY : Int) + 1) *
        lineHeight - exCfg.h := by
  refine ⟨?_, ?_, ?_, ?_⟩ <;> decide

/-- Witness for C8: the scroll policy theorem evaluated on a concrete
focused state and a printable-character key. -/
theorem keyPress_scroll_policy_witness :
    exA.isFocused = true ∧ 0 ≤ exA.scrollY ∧
    0 ≤ (TextArea.handleKeyPress exCfg (Key.char 'z') exA).1.scrollY :=
  ⟨rfl, by decide, (keyPress_scroll_policy exCfg (Key.char 'z') exA rfl (by decide)).2.1⟩


theorem splitNl_eq_single {s : Str} (h : '\n' ∉ s) : splitNl s = [s] := by
  unfold splitNl List.splitOn
  exact List.splitOnP_eq_single _ _
    (fun x hx => by simp only [beq_iff_eq]; rintro rfl; exact h hx)

/-- Claim C4 (amended): the TextArea constructor stores the initial string
as the single element of `lines` without splitting on line breaks; the
stored sequence coincides with the split only when the string contains no
line-break character. (The original claim is refuted by
`init_does_not_split_newlines`.) -/
theorem init_lines_singleton (s : Str) :
    (TextArea.init s).lines = [s] ∧ ('\n' ∉ s → splitNl s = [s]) :=
  ⟨rfl, fun h => splitNl_eq_single h⟩

/-- Witness for C4: the amended theorem evaluated on the newline-free
initial string "hi". -/
theorem init_lines_singleton_witness :
    (TextArea.init ['h', 'i']).lines = [['h', 'i']] ∧ splitNl ['h', 'i'] = [['h', 'i']] :=
  ⟨(init_lines_singleton ['h', 'i']).1, (init_lines_singleton ['h', 'i']).2 (by decide)⟩

/-- Claim C4 counterexample: constructing a TextArea with initial text
"a
b" yields lines ["a
b"], not the split ["a", "b"] the claim
requires. -/
theorem init_does_not_split_newlines :
    (TextArea.init ['a', '\n', 'b']).lines = [['a', '\n', 'b']] ∧
    splitNl ['a', '\n', 'b'] = [['a'], ['b']] ∧
    ¬(TextArea.init ['a', '\n', 'b']).lines = splitNl ['a', '\n', 'b'] := by
  refine ⟨rfl, by decide, by decide⟩

/-- Claim C6: setText(s) followed by getText() returns exactly s (and join
of split on line breaks is the identity), and setText places the cursor on
the last row at the end of the last line. -/
theorem setText_getText_round_trip (s : Str) (st : TAState) :
    TextArea.getText (TextArea.setText s st) = s ∧
    joinNl (splitNl s) = s ∧
    (TextArea.setText s st).lines = splitNl s ∧
    (TextArea.setText s st).cursorY = (splitNl s).length - 1 ∧
    (TextArea.setText s st).cursorX =
      ((splitNl s).getD ((splitNl s).length - 1) []).length := by
  refine ⟨rfl, ?_, rfl, rfl, rfl⟩
  have h : List.intercalate ['\n'] (s.splitOn '\n') = s := List.intercalate_splitOn s '\n'
  simpa [joinNl, splitNl] using h

/-- Claim C9: an unfocused InputBox ignores key events entirely (state
unchanged, no notification); while focused, Enter transitions it to
unfocused; and a pointer-down outside the widget bounds makes it
unfocused. -/
theorem inputBox_focus_discipline (cfg : Rect) (k : Key) (st : IBState) (mx my : Int) :
    (st.isFocused = false → InputBox.handleKeyPress k st = (st, [])) ∧
    (st.isFocused = true → (InputBox.handleKeyPress Key.enter st).1.isFocused = false) ∧
    (¬(mx > cfg.x ∧ mx < cfg.x + cfg.w ∧ my > cfg.y ∧ my < cfg.y + cfg.h) →
      (InputBox.handleClick cfg mx my st).isFocused = false) := by
  refine ⟨fun h => ?_, fun h => ?_, fun h => ?_⟩
  · simp [InputBox.handleKeyPress, h]
  · simp [InputBox.handleKeyPress, h]
  · unfold InputBox.handleClick
    dsimp only
    cases hb : (mx > cfg.x && mx < cfg.x + cfg.w && (my > cfg.y) && (my < cfg.y + cfg.h)) with
    | false => rfl
    | true =>
      rw [Bool.and_eq_true, Bool.and_eq_true, Bool.and_eq_true] at hb
      exact absurd ⟨of_decide_eq_true hb.1.1.1, of_decide_eq_true hb.1.1.2,
        of_decide_eq_true hb.1.2, of_decide_eq_true hb.2⟩ h

/-- Witness for C9: the three focus-discipline facts evaluated on concrete
unfocused/focused InputBox states and an outside click. -/
theorem inputBox_focus_discipline_witness :
    InputBox.handleKeyPress Key.enter exIBu = (exIBu, []) ∧
    (InputBox.handleKeyPress Key.enter exIBf).1.isFocused = false ∧
    (InputBox.handleClick exCfg 200 200 exIBf).isFocused = false :=
  ⟨(inputBox_focus_discipline exCfg Key.enter exIBu 200 200).1 rfl,
    (inputBox_focus_discipline exCfg Key.enter exIBf 200 200).2.1 rfl,
    (inputBox_focus_discipline exCfg Key.enter exIBf 200 200).2.2 (by decide)⟩

/-- Claim C10: Slider.setValue stores a value within [min, max] (given
min <= max); the stored value is the input rounded to the nearest integer
(isInteger) or nearest step multiple (nonzero step) before clamping;
getValue returns it; and the onChange callback, when registered, is invoked
exactly once with the final stored value. -/
theorem setValue_quantize_clamp_notify (v : ℚ) (st : SliderState) (hm : st.min ≤ st.max) :
    st.min ≤ (Slider.setValue v st).1.value ∧
    (Slider.setValue v st).1.value ≤ st.max ∧
    (Slider.setValue v st).1.value =
      constrainQ
        (if st.isInteger then (jsRound v : ℚ)
         else if st.step ≠ 0 then (jsRound (v / st.step) : ℚ) * st.step
         else v)
        st.min st.max ∧
    Slider.getValue (Slider.setValue v st).1 = (Slider.setValue v st).1.value ∧
    (Slider.setValue v st).2 =
      (if st.hasOnChange then [(Slider.setValue v st).1.value] else []) := by
  refine ⟨le_max_right _ _, max_le (min_le_right _ _) hm, rfl, rfl, rfl⟩

/-- Witness for C10: setValue(3.3) on a [0,10] slider with step 1/2 stays
within bounds. -/
theorem setValue_quantize_clamp_notify_witness :
    exSlider.min ≤ exSlider.max ∧
    exSlider.min ≤ (Slider.setValue (33 / 10) exSlider).1.value ∧
    (Slider.setValue (33 / 10) exSlider).1.value ≤ exSlider.max :=
  ⟨by norm_num [exSlider],
    (setValue_quantize_clamp_notify (33 / 10) exSlider (by norm_num [exSlider])).1,
    (setValue_quantize_clamp_notify (33 / 10) exSlider (by norm_num [exSlider])).2.1⟩

/-- Claim C5: after any sequence of TextArea operations (key events --
inserts, newline, backspace, arrows --, click-to-position, setText) starting
from a valid state, the cursor invariants hold: lines is nonempty,
cursorRow < lines.length and cursorCol <= lines[cursorRow].length. -/
theorem taOps_preserve_cursor_invariants (cfg : Rect) (ops : List TAOp) (st : TAState) (h : Valid st) :
    Valid (List.foldl (TAOp.apply cfg) st ops) :=
  valid_foldl cfg ops st h

/-- Witness for C5: a concrete six-operation event sequence applied to a
freshly constructed TextArea ends in a valid state. -/
theorem taOps_preserve_cursor_invariants_witness :
    Valid (List.foldl (TAOp.apply exCfg) (TextArea.init ['a', '\n', 'b'])
      [TAOp.setText ['h', 'i'], TAOp.key Key.enter, TAOp.key (Key.char 'x'),
        TAOp.click exMeasure 12 5, TAOp.key Key.backspace, TAOp.key Key.upArrow]) :=
  taOps_preserve_cursor_invariants exCfg _ _ ⟨by decide, by decide, by decide⟩

/-- Witness for C1: the amended theorem evaluated on a concrete focused
state with a printable-character key. -/
theorem handleKeyPress_notifies_exactly_once_witness :
    exA.isFocused = true ∧ exA.hasOnInput = true ∧
    (TextArea.handleKeyPress exCfg (Key.char 'q') exA).2 =
      [(TextArea.handleKeyPress exCfg (Key.char 'q') exA).1.text] :=
  ⟨rfl, rfl, (handleKeyPress_notifies_exactly_once exCfg (Key.char 'q') exA rfl rfl).1⟩

/-- Witness for C2: the amended theorem evaluated at a concrete focused
state with cursor (0,0). -/
theorem backspace_at_origin_preserves_buffer_witness :
    (TextArea.handleKeyPress exCfg Key.backspace exA).1.lines = exA.lines ∧
    (TextArea.handleKeyPress exCfg Key.backspace exA).1.cursorX = 0 ∧
    (TextArea.handleKeyPress exCfg Key.backspace exA).1.cursorY = 0 := by
  obtain ⟨w1, w2, w3, -, -⟩ := backspace_at_origin_preserves_buffer exCfg exA rfl rfl rfl
  exact ⟨w1, w2, w3⟩

end SimpleUI
